import Mathlib

/-!
Shallow embedding of the LinkedIn job scraper core
(`tools/scrape_linkedin_jobs.py`, the single-region engine, and
`tools/scrape_linkedin_multiregion.py`, the multi-region engine).

Browser interaction is modelled by oracles: a `Card` records, for each of the
five per-card locator calls of `extract_jobs_from_page`, whether the call
succeeded (`some rawText`) or raised (`none`); a `PageEnv` records, for one
iteration of the pagination loop, whether navigation succeeded, whether the
CAPTCHA marker was detected on the landed page, whether the post-cooldown
re-navigation succeeded, and what `extract_jobs_from_page` returned.
All control flow around those oracles is translated from the source.
-/

namespace Scraper

/-- One candidate job card on a results page.  Each field is the outcome of
the corresponding `card.locator(...).first.inner_text/get_attribute` call:
`none` means the call raised (timeout / no element), `some s` means it
returned the raw text `s` (before `.strip()`).  For the href field, the
Python `or ""` already turned a `None` attribute into `""`, so `some h`
carries that post-`or` value and `none` is the exception path. -/
structure Card where
  title? : Option String
  company? : Option String
  location? : Option String
  posted? : Option String
  href? : Option String
deriving DecidableEq

/-- Python str.strip: drop leading and trailing whitespace (written on the
character list so that it evaluates in the kernel). -/
def pyStrip (s : String) : String :=
  ⟨((s.data.dropWhile Char.isWhitespace).reverse.dropWhile Char.isWhitespace).reverse⟩

/-- The part of a string before the first question mark: Python
href.split with separator questionmark, index 0. -/
def beforeQuery (s : String) : String :=
  ⟨s.data.takeWhile (fun c => c != '?')⟩

/-- Python str.startswith. -/
def pyStartsWith (s pre : String) : Bool :=
  pre.data.isPrefixOf s.data

/-- `try: x = locator(...).inner_text().strip() except: x = ""` -/
def fieldOf (o : Option String) : String :=
  (o.map pyStrip).getD ""

/-- The URL cleanup of both engines: take the part of href before the first
question mark (the single-region engine additionally applies a regex
substitution deleting from a question mark onward, which on the already
question-mark-free string is the identity); if the result is non-empty and
does not start with http, prefix the linkedin host; the except branch of the
try block sets the URL to the empty string. -/
def urlOf (o : Option String) : String :=
  match o with
  | none => ""
  | some h =>
    let u := beforeQuery h
    if u != "" && !(pyStartsWith u "http") then "https://www.linkedin.com" ++ u else u

/-- Multi-region only: the location field falls back to the search location
on an extraction failure (`except Exception: loc = location`). -/
def locOfM (o : Option String) (location : String) : String :=
  (o.map pyStrip).getD location

/-- `if title or company:` — Python truthiness of the stripped strings. -/
def accepts (c : Card) : Bool :=
  fieldOf c.title? != "" || fieldOf c.company? != ""

/-- The record dict built by the single-region `extract_jobs_from_page`
(fields in the order of the dict literal at lines 168-177). -/
structure Job1 where
  title : String
  company : String
  location : String
  posted : String
  url : String
  seniority : String
  employmentType : String
  description : String
deriving DecidableEq

/-- The record dict built by the multi-region `extract_jobs_from_page`
(dict literal at lines 184-193). -/
structure JobM where
  title : String
  company : String
  location : String
  posted : String
  url : String
  searchRegion : String
  seniority : String
  employmentType : String
deriving DecidableEq

namespace Single

/-- The dict appended for one accepted card (single-region engine):
title/company/location/posted come from the per-field try blocks, the URL from
the href try block, and Seniority / Employment Type / Description are
initialised to the empty string. -/
def extractCard (c : Card) : Job1 :=
  ⟨fieldOf c.title?, fieldOf c.company?, fieldOf c.location?, fieldOf c.posted?,
    urlOf c.href?, "", "", ""⟩

/-- `for card in cards: ... if title or company: jobs.append({...})`
(single-region engine, lines 137-179). -/
def extract_jobs_from_page : List Card → List Job1
  | [] => []
  | c :: rest =>
    if accepts c then extractCard c :: extract_jobs_from_page rest
    else extract_jobs_from_page rest

/-- The dict literal of the single-region record, as the ordered key/value
rows the exporter sees. -/
def rowOf (j : Job1) : List (String × String) :=
  [("Job Title", j.title), ("Company", j.company), ("Location", j.location),
   ("Posted", j.posted), ("Job URL", j.url), ("Seniority", j.seniority),
   ("Employment Type", j.employmentType), ("Description", j.description)]

/-- `key = job["Job URL"] or job["Job Title"] + job["Company"]`
(single-region `main`, line 379): the URL when non-empty, else the bare
concatenation of title and company. -/
def identityKey (j : Job1) : String :=
  if j.url ≠ "" then j.url else j.title ++ j.company

end Single

namespace Multi

/-- The dict appended for one accepted card (multi-region engine): the
location falls back to the search location on failure, and the record also
carries the search region. -/
def extractCard (c : Card) (location : String) : JobM :=
  ⟨fieldOf c.title?, fieldOf c.company?, locOfM c.location? location,
    fieldOf c.posted?, urlOf c.href?, location, "", ""⟩

/-- `for card in cards: ... if title or company: jobs.append({...})`
(multi-region engine, lines 154-195). -/
def extract_jobs_from_page (cards : List Card) (location : String) : List JobM :=
  match cards with
  | [] => []
  | c :: rest =>
    if accepts c then extractCard c location :: extract_jobs_from_page rest location
    else extract_jobs_from_page rest location

/-- The dict literal of the multi-region record, as ordered key/value rows. -/
def rowOf (j : JobM) : List (String × String) :=
  [("Job Title", j.title), ("Company", j.company), ("Location", j.location),
   ("Posted", j.posted), ("Job URL", j.url), ("Search Region", j.searchRegion),
   ("Seniority", j.seniority), ("Employment Type", j.employmentType)]

/-- Dedup key of the multi-region `main` (line 338): the Job URL when
non-empty, else the f-string joining Job Title and Company with a `|`
separator. -/
def identityKeyM (j : JobM) : String :=
  if j.url ≠ "" then j.url else j.title ++ "|" ++ j.company

end Multi

/-- The accepted-so-far output of a dedup loop, written with an explicit
`seen` accumulator: `if key not in seen: seen.add(key); out.append(job)`.
Returns only the records accepted from `l` (helper form used in proofs). -/
def dedupByKey {α : Type} (key : α → String) : List α → List String → List α
  | [], _ => []
  | r :: rs, seen =>
    if key r ∈ seen then dedupByKey key rs seen
    else r :: dedupByKey key rs (key r :: seen)

/-- The dedup loop exactly as written in both `main`s: traverse `l`, keep a
`seen` key set and an output accumulator, append first-seen records. -/
def dedupLoop {α : Type} (key : α → String) : List α → List String → List α → List α
  | [], _, acc => acc
  | r :: rs, seen, acc =>
    if key r ∈ seen then dedupLoop key rs seen acc
    else dedupLoop key rs (key r :: seen) (acc ++ [r])

namespace Single

/-- Single-region `main`, lines 375-382: `seen = set(); unique_jobs = [];
for job in jobs: key = ...; if key not in seen: seen.add(key); unique_jobs.append(job)`. -/
def unique_jobs (jobs : List Job1) : List Job1 :=
  dedupLoop identityKey jobs [] []

end Single

/-! ## Query Builder (`build_search_url`, identical in both engines) -/

/-- The params dict of `build_search_url` in insertion order: the six fixed
entries (`f_TPR` always present with the empty value, the integers
`position = 1`, `pageNum = 0` and `start` stringified by `urlencode`),
followed by `f_E` / `f_I` / `f_SB2`, each added only when its value is a
non-empty (truthy) string. -/
def build_search_params (keyword location : String) (start : Nat)
    (exp_levels industries min_salary : String) : List (String × String) :=
  [("keywords", keyword), ("location", location), ("f_TPR", ""),
   ("position", "1"), ("pageNum", "0"), ("start", toString start)]
  ++ (if exp_levels ≠ "" then [("f_E", exp_levels)] else [])
  ++ (if industries ≠ "" then [("f_I", industries)] else [])
  ++ (if min_salary ≠ "" then [("f_SB2", min_salary)] else [])

/-- Uppercase hex digit. -/
def hexDigit (n : Nat) : Char :=
  if n < 10 then Char.ofNat (48 + n) else Char.ofNat (55 + n)

/-- `urllib.parse.quote_plus` on one character, for ASCII input: ASCII
alphanumerics and `_` `.` `-` `~` are kept, a space becomes `+`, anything
else is percent-encoded. -/
def quotePlusChar (c : Char) : String :=
  if c.isAlphanum || c == '_' || c == '.' || c == '-' || c == '~' then
    String.singleton c
  else if c == ' ' then "+"
  else "%" ++ String.singleton (hexDigit (c.toNat / 16)) ++
    String.singleton (hexDigit (c.toNat % 16))

/-- `urllib.parse.quote_plus` for ASCII strings. -/
def quotePlus (s : String) : String :=
  String.join (s.toList.map quotePlusChar)

/-- `urllib.parse.urlencode`: key=value segments joined by ampersands. -/
def urlencode (ps : List (String × String)) : String :=
  String.intercalate "&" (ps.map (fun p => quotePlus p.1 ++ "=" ++ quotePlus p.2))

/-- `build_search_url` of both engines (lines 53-70 and 100-117). -/
def build_search_url (keyword location : String) (start : Nat)
    (exp_levels industries min_salary : String) : String :=
  "https://www.linkedin.com/jobs/search/?" ++
    urlencode (build_search_params keyword location start exp_levels industries min_salary)

/-! ## Pagination Controller, single-region engine (`scrape`, lines 249-294) -/

/-- The only exception kind that can escape the single-region page loop: the
post-cooldown `page.goto` on the CAPTCHA branch (line 271) is the one
navigation call not wrapped in a try block. -/
inductive UncaughtExc where
  | playwrightTimeout
deriving DecidableEq

namespace Single

/-- Environment of one iteration of the single-region page loop.
`navOk` records whether one of the three retried `page.goto` attempts
succeeded; every timeout there is caught, and after the third failure the
loop body falls through to the CAPTCHA check and extraction of whatever page
is currently loaded, so `navOk` does not influence control flow.
`captcha` is the result of the CAPTCHA-marker check on the landed page,
`renavOk` whether the unprotected post-cooldown `page.goto` succeeds (only
consulted when `captcha` is true), and `jobs` what `extract_jobs_from_page`
returns for the page finally inspected. -/
structure PageEnv where
  navOk : Bool
  captcha : Bool
  renavOk : Bool
  jobs : List Job1
deriving DecidableEq

/-- The single-region page loop, fuelled by `max_pages`.  Returns the list of
page indices whose loop body was started (a fetch was issued for them)
together with the outcome: the collected records, or the exception escaping
from the unprotected CAPTCHA re-navigation.  After extraction: stop on an
empty page, extend `all_jobs`, stop when the page yielded fewer than 25
records, else advance. -/
def scrapeGo (env : Nat → PageEnv) : Nat → Nat → List Job1 →
    List Nat × Except UncaughtExc (List Job1)
  | 0, _, acc => ([], Except.ok acc)
  | fuel + 1, i, acc =>
    let e := env i
    if e.captcha && !e.renavOk then ([i], Except.error UncaughtExc.playwrightTimeout)
    else if e.jobs.isEmpty then ([i], Except.ok acc)
    else if e.jobs.length < 25 then ([i], Except.ok (acc ++ e.jobs))
    else
      let r := scrapeGo env fuel (i + 1) (acc ++ e.jobs)
      (i :: r.1, r.2)

/-- `scrape(...)`: run the page loop from page 0 with an empty `all_jobs`.
The detail-fetch phase mutates records in place and never changes the page
count or loop control, so it is not modelled here. -/
def scrape (env : Nat → PageEnv) (max_pages : Nat) :
    List Nat × Except UncaughtExc (List Job1) :=
  scrapeGo env max_pages 0 []

/-- Single-region `main` after `scrape` returned: `sys.exit(1)` when the
collected list is empty (line 371-373), else dedup and hand the unique list
to the exporter. -/
def mainTail (collected : List Job1) : Except Nat (List Job1) :=
  if collected.isEmpty then Except.error 1
  else Except.ok (unique_jobs collected)

/-- The whole single-region run: an exception escaping `scrape` propagates
out of `main` (the process crashes); otherwise `main` continues with the
collected list. -/
def run (env : Nat → PageEnv) (max_pages : Nat) :
    Except UncaughtExc (Except Nat (List Job1)) :=
  match (scrape env max_pages).2 with
  | Except.error e => Except.error e
  | Except.ok jobs => Except.ok (mainTail jobs)

end Single

/-! ## Pagination and Region Controller, multi-region engine -/

namespace Multi

/-- Environment of one iteration of `scrape_location`.  Here the initial
`page.goto` is wrapped in try/except with `break` on timeout (`navOk`), and
the CAPTCHA re-navigation is wrapped with `break` on any exception
(`renavOk`, consulted only when `captcha` is true). -/
structure PageEnvM where
  navOk : Bool
  captcha : Bool
  renavOk : Bool
  jobs : List JobM
deriving DecidableEq

/-- `scrape_location` page loop (lines 203-239), fuelled by the fixed
five-page cap.  Returns the fetched page indices and the collected list.
After extraction: stop on an empty page, extend `collected`, stop when the
page yielded fewer than 20 records (last-page heuristic of this engine),
stop when `collected` reached `target`, else advance. -/
def scrapeLocationGo (env : Nat → PageEnvM) (target : Int) : Nat → Nat → List JobM →
    List Nat × List JobM
  | 0, _, collected => ([], collected)
  | fuel + 1, i, collected =>
    let e := env i
    if !e.navOk then ([i], collected)
    else if e.captcha && !e.renavOk then ([i], collected)
    else if e.jobs.isEmpty then ([i], collected)
    else
      let c := collected ++ e.jobs
      if e.jobs.length < 20 then ([i], c)
      else if target ≤ (c.length : Int) then ([i], c)
      else
        let r := scrapeLocationGo env target fuel (i + 1) c
        (i :: r.1, r.2)

/-- `scrape_location(page, keyword, location, target, ...)`: five-page cap,
empty `collected`. -/
def scrape_location (env : Nat → PageEnvM) (target : Int) : List Nat × List JobM :=
  scrapeLocationGo env target 5 0 []

/-- The mutable run state of the multi-region `main`: `all_jobs` and the
`seen_urls` key set. -/
structure RunSt where
  jobs : List JobM
  seen : List String
deriving DecidableEq

/-- The global dedup loop of the multi-region `main` (lines 336-342): offer
each raw record; first-seen keys append the record and are added to
`seen_urls`. -/
def offerAll : RunSt → List JobM → RunSt
  | st, [] => st
  | st, j :: rest =>
    if identityKeyM j ∈ st.seen then offerAll st rest
    else offerAll ⟨st.jobs ++ [j], identityKeyM j :: st.seen⟩ rest

/-- The region loop of the multi-region `main` (lines 325-345): for each
location in the fixed list order, compute `remaining = target - len(all_jobs)`
and stop the whole run when `remaining <= 0`; otherwise scrape the location
(abstracted by the oracle `raw`, mapping the location and the remaining
count to the raw records that `scrape_location` returned) and offer its
records to the deduplicator.  Also returns, for each location actually
started, the pair of that location and the accepted count on entry. -/
def runRegions (raw : String → Int → List JobM) (target : Int) :
    List String → RunSt → RunSt × List (String × Nat)
  | [], st => (st, [])
  | loc :: rest, st =>
    if target - (st.jobs.length : Int) ≤ 0 then (st, [])
    else
      let st' := offerAll st (raw loc (target - (st.jobs.length : Int)))
      let r := runRegions raw target rest st'
      (r.1, (loc, st.jobs.length) :: r.2)

/-- Multi-region `main` after the region loop: `sys.exit(1)` when `all_jobs`
is empty (lines 349-351), else trim to the target
(`final_jobs = all_jobs[:args.target]`, line 354) and export.  The negative-
target slice semantics of Python is unreachable here: with a non-positive
target the region loop visits nothing and `all_jobs` stays empty. -/
def mainTail (raw : String → Int → List JobM) (target : Int) (locations : List String) :
    Except Nat (List JobM) :=
  let st := (runRegions raw target locations ⟨[], []⟩).1
  if st.jobs.isEmpty then Except.error 1
  else Except.ok (st.jobs.take target.toNat)

end Multi

/-- The hard-coded region presets (multi-region engine, lines 69-93). -/
def REGIONS : List (String × List String) :=
  [("apac", ["Singapore", "Australia", "Japan", "India", "Hong Kong", "South Korea",
             "China", "Malaysia", "New Zealand", "Philippines", "Indonesia", "Thailand"]),
   ("sea", ["Singapore", "Malaysia", "Philippines", "Indonesia", "Thailand",
            "Vietnam", "Myanmar"])]

/-! ## Concrete sample data for witnesses and counterexamples -/

/-- A single-region record with a URL key. -/
def jobU : Job1 := ⟨"Engineer", "Acme", "SG", "1d", "https://www.linkedin.com/jobs/view/1", "", "", ""⟩

/-- Title AB, company C, no URL. -/
def jobAB_C : Job1 := ⟨"AB", "C", "", "", "", "", "", ""⟩

/-- Title A, company BC, no URL: distinct from `jobAB_C` but with the same
bare concatenation of title and company. -/
def jobA_BC : Job1 := ⟨"A", "BC", "", "", "", "", "", ""⟩

/-- Multi-region twin of `jobAB_C`. -/
def jobMAB_C : JobM := ⟨"AB", "C", "", "", "", "", "", ""⟩

/-- Multi-region twin of `jobA_BC`. -/
def jobMA_BC : JobM := ⟨"A", "BC", "", "", "", "", "", ""⟩

/-- A multi-region record. -/
def jobMU : JobM := ⟨"Engineer", "Acme", "SG", "1d", "https://www.linkedin.com/jobs/view/2", "SG", "", ""⟩

/-- Single-region environment: every page navigates fine, no CAPTCHA, and
yields ten records (fewer than the 25 full-page size). -/
def envShort : Nat → Single.PageEnv := fun _ => ⟨true, false, true, List.replicate 10 jobU⟩

/-- Single-region environment for the CAPTCHA crash: navigation lands on a
CAPTCHA page and the unprotected post-cooldown re-navigation times out. -/
def envCrash : Nat → Single.PageEnv := fun _ => ⟨true, true, false, [jobU]⟩

/-- Multi-region environment: every page yields 22 records — fewer than the
25 full-page size, but not fewer than the 20-record threshold this engine
actually tests. -/
def envM22 : Nat → Multi.PageEnvM := fun _ => ⟨true, false, true, List.replicate 22 jobMU⟩

/-- Multi-region card whose location locator fails. -/
def cardLocFail : Card := ⟨some "T", some "Co", none, none, none⟩

/-- Region-loop oracle handing out one fixed record per location. -/
def rawOne : String → Int → List JobM := fun _ _ => [jobMU]

/-! ## Helper lemmas about the dedup loop -/

/-- The accumulator form of the dedup loop appends the first-seen records. -/
theorem dedupLoop_eq {α : Type} (key : α → String) :
    ∀ (l : List α) (seen : List String) (acc : List α),
      dedupLoop key l seen acc = acc ++ dedupByKey key l seen := by
  intro l
  induction l with
  | nil => intro seen acc; simp [dedupLoop, dedupByKey]
  | cons r rs ih =>
    intro seen acc
    by_cases h : key r ∈ seen
    · simp [dedupLoop, dedupByKey, h, ih]
    · simp [dedupLoop, dedupByKey, h, ih]

/-- The dedup output is a sublist of the offered sequence (order preserved). -/
theorem dedupByKey_sublist {α : Type} (key : α → String) :
    ∀ (l : List α) (seen : List String), List.Sublist (dedupByKey key l seen) l := by
  intro l
  induction l with
  | nil => intro seen; simp [dedupByKey]
  | cons r rs ih =>
    intro seen
    by_cases h : key r ∈ seen
    · have he : dedupByKey key (r :: rs) seen = dedupByKey key rs seen := by
        simp [dedupByKey, h]
      rw [he]; exact (ih seen).cons r
    · have he : dedupByKey key (r :: rs) seen = r :: dedupByKey key rs (key r :: seen) := by
        simp [dedupByKey, h]
      rw [he]; exact (ih _).cons₂ r

/-- No accepted record carries a key that was already in the seen set. -/
theorem dedupByKey_not_seen {α : Type} (key : α → String) :
    ∀ (l : List α) (seen : List String) (x : α),
      x ∈ dedupByKey key l seen → key x ∉ seen := by
  intro l
  induction l with
  | nil => intro seen x hx; simp [dedupByKey] at hx
  | cons r rs ih =>
    intro seen x hx
    by_cases h : key r ∈ seen
    · exact ih seen x (by simpa [dedupByKey, h] using hx)
    · have hx' : x = r ∨ x ∈ dedupByKey key rs (key r :: seen) := by
        simpa [dedupByKey, h] using hx
      rcases hx' with rfl | hx'
      · exact h
      · intro hs
        exact ih _ x hx' (List.mem_cons_of_mem _ hs)

/-- No two accepted records share a key. -/
theorem dedupByKey_pairwise {α : Type} (key : α → String) :
    ∀ (l : List α) (seen : List String),
      (dedupByKey key l seen).Pairwise (fun a b => key a ≠ key b) := by
  intro l
  induction l with
  | nil => intro seen; simp [dedupByKey]
  | cons r rs ih =>
    intro seen
    by_cases h : key r ∈ seen
    · simpa [dedupByKey, h] using ih seen
    · have hp : (r :: dedupByKey key rs (key r :: seen)).Pairwise
          (fun a b => key a ≠ key b) := by
        refine List.pairwise_cons.2 ⟨?_, ih _⟩
        intro b hb he
        apply dedupByKey_not_seen key rs (key r :: seen) b hb
        rw [← he]
        exact List.mem_cons_self _ _
      simpa [dedupByKey, h] using hp

/-- For every offered record whose key is fresh, the record accepted for that
key is the first occurrence in the offered sequence. -/
theorem dedupByKey_first {α : Type} (key : α → String) :
    ∀ (l : List α) (seen : List String) (r : α), r ∈ l → key r ∉ seen →
      ∃ f, l.find? (fun x => key x == key r) = some f ∧ f ∈ dedupByKey key l seen := by
  intro l
  induction l with
  | nil => intro seen r hr; exact absurd hr (List.not_mem_nil r)
  | cons a rs ih =>
    intro seen r hr hks
    by_cases hk : key a = key r
    · refine ⟨a, ?_, ?_⟩
      · rw [List.find?_cons_of_pos]
        simp [hk]
      · have ha : key a ∉ seen := by rw [hk]; exact hks
        have he : dedupByKey key (a :: rs) seen = a :: dedupByKey key rs (key a :: seen) := by
          simp [dedupByKey, ha]
        rw [he]
        exact List.mem_cons_self _ _
    · have hr' : r ∈ rs := by
        rcases List.mem_cons.1 hr with rfl | h
        · exact absurd rfl hk
        · exact h
      have hfind : (a :: rs).find? (fun x => key x == key r) =
          rs.find? (fun x => key x == key r) := by
        rw [List.find?_cons_of_neg]
        simp [hk]
      by_cases ha : key a ∈ seen
      · obtain ⟨f, hf, hfm⟩ := ih seen r hr' hks
        refine ⟨f, by rw [hfind]; exact hf, ?_⟩
        simpa [dedupByKey, ha] using hfm
      · have hks' : key r ∉ key a :: seen := by
          intro hmem
          rcases List.mem_cons.1 hmem with he | hmem'
          · exact hk he.symm
          · exact hks hmem'
        obtain ⟨f, hf, hfm⟩ := ih (key a :: seen) r hr' hks'
        refine ⟨f, by rw [hfind]; exact hf, ?_⟩
        have he : dedupByKey key (a :: rs) seen = a :: dedupByKey key rs (key a :: seen) := by
          simp [dedupByKey, ha]
        rw [he]
        exact List.mem_cons_of_mem a hfm

/-- The multi-region offer loop appends exactly the first-seen records. -/
theorem offerAll_jobs (m : List JobM) :
    ∀ (jobs : List JobM) (seen : List String),
      (Multi.offerAll ⟨jobs, seen⟩ m).jobs = jobs ++ dedupByKey Multi.identityKeyM m seen := by
  induction m with
  | nil => intro jobs seen; simp [Multi.offerAll, dedupByKey]
  | cons j rest ih =>
    intro jobs seen
    by_cases h : Multi.identityKeyM j ∈ seen
    · simp [Multi.offerAll, dedupByKey, h, ih]
    · simp [Multi.offerAll, dedupByKey, h, ih]

/-! ## Helper lemmas about the extractors -/

/-- The single-region extractor keeps exactly the cards with a non-empty
title or company, in order. -/
theorem extract1_eq (cards : List Card) :
    Single.extract_jobs_from_page cards = (cards.filter accepts).map Single.extractCard := by
  induction cards with
  | nil => simp [Single.extract_jobs_from_page]
  | cons c rest ih =>
    cases hc : accepts c <;>
      simp [Single.extract_jobs_from_page, List.filter_cons, hc, ih]

/-- The multi-region extractor keeps exactly the cards with a non-empty
title or company, in order. -/
theorem extractM_eq (cards : List Card) (location : String) :
    Multi.extract_jobs_from_page cards location =
      (cards.filter accepts).map (fun c => Multi.extractCard c location) := by
  induction cards with
  | nil => simp [Multi.extract_jobs_from_page]
  | cons c rest ih =>
    cases hc : accepts c <;>
      simp [Multi.extract_jobs_from_page, List.filter_cons, hc, ih]

/-! ## Helper lemmas about the pagination loops -/

/-- Fetched page indices of the single-region loop start at the start index. -/
theorem scrapeGo_mem_ge (env : Nat → Single.PageEnv) :
    ∀ (fuel i : Nat) (acc : List Job1) (j : Nat),
      j ∈ (Single.scrapeGo env fuel i acc).1 → i ≤ j := by
  intro fuel
  induction fuel with
  | zero => intro i acc j hj; simp [Single.scrapeGo] at hj
  | succ n ih =>
    intro i acc j hj
    by_cases h1 : (env i).captcha && !(env i).renavOk
    · simp [Single.scrapeGo, h1] at hj; omega
    · by_cases h2 : (env i).jobs.isEmpty
      · simp [Single.scrapeGo, h1, h2] at hj; omega
      · by_cases h3 : (env i).jobs.length < 25
        · simp [Single.scrapeGo, h1, h2, h3] at hj; omega
        · simp [Single.scrapeGo, h1, h2, h3] at hj
          rcases hj with rfl | hj
          · exact Nat.le_refl j
          · exact Nat.le_of_succ_le (ih (i + 1) _ j hj)

/-- Single-region: a fetched page that yielded fewer than 25 records is the
last fetched page of the loop. -/
theorem scrapeGo_short_last (env : Nat → Single.PageEnv) :
    ∀ (fuel i : Nat) (acc : List Job1) (j : Nat),
      j ∈ (Single.scrapeGo env fuel i acc).1 → (env j).jobs.length < 25 →
      ∀ k, k ∈ (Single.scrapeGo env fuel i acc).1 → k ≤ j := by
  intro fuel
  induction fuel with
  | zero => intro i acc j hj; simp [Single.scrapeGo] at hj
  | succ n ih =>
    intro i acc j hj hshort k hk
    by_cases h1 : (env i).captcha && !(env i).renavOk
    · simp [Single.scrapeGo, h1] at hj hk; omega
    · by_cases h2 : (env i).jobs.isEmpty
      · simp [Single.scrapeGo, h1, h2] at hj hk; omega
      · by_cases h3 : (env i).jobs.length < 25
        · simp [Single.scrapeGo, h1, h2, h3] at hj hk; omega
        · simp [Single.scrapeGo, h1, h2, h3] at hj hk
          rcases hj with rfl | hj
          · exact absurd hshort h3
          · rcases hk with rfl | hk
            · exact Nat.le_of_succ_le (scrapeGo_mem_ge env n (k + 1) _ j hj)
            · exact ih (i + 1) _ j hj hshort k hk

/-- Fetched page indices of the multi-region location loop start at the
start index. -/
theorem scrapeLocationGo_mem_ge (env : Nat → Multi.PageEnvM) (target : Int) :
    ∀ (fuel i : Nat) (acc : List JobM) (j : Nat),
      j ∈ (Multi.scrapeLocationGo env target fuel i acc).1 → i ≤ j := by
  intro fuel
  induction fuel with
  | zero => intro i acc j hj; simp [Multi.scrapeLocationGo] at hj
  | succ n ih =>
    intro i acc j hj
    by_cases h0 : (env i).navOk
    · by_cases h1 : (env i).captcha && !(env i).renavOk
      · simp [Multi.scrapeLocationGo, h0, h1] at hj; omega
      · by_cases h2 : (env i).jobs.isEmpty
        · simp [Multi.scrapeLocationGo, h0, h1, h2] at hj; omega
        · by_cases h3 : (env i).jobs.length < 20
          · simp [Multi.scrapeLocationGo, h0, h1, h2, h3] at hj; omega
          · by_cases h4 : target ≤ (acc.length : Int) + ((env i).jobs.length : Int)
            · simp [Multi.scrapeLocationGo, h0, h1, h2, h3, h4] at hj; omega
            · simp [Multi.scrapeLocationGo, h0, h1, h2, h3, h4] at hj
              rcases hj with rfl | hj
              · exact Nat.le_refl j
              · exact Nat.le_of_succ_le (ih (i + 1) _ j hj)
    · simp [Multi.scrapeLocationGo, h0] at hj; omega

/-- Multi-region: a fetched page that yielded fewer than 20 records is the
last fetched page of that location. -/
theorem scrapeLocationGo_short_last (env : Nat → Multi.PageEnvM) (target : Int) :
    ∀ (fuel i : Nat) (acc : List JobM) (j : Nat),
      j ∈ (Multi.scrapeLocationGo env target fuel i acc).1 → (env j).jobs.length < 20 →
      ∀ k, k ∈ (Multi.scrapeLocationGo env target fuel i acc).1 → k ≤ j := by
  intro fuel
  induction fuel with
  | zero => intro i acc j hj; simp [Multi.scrapeLocationGo] at hj
  | succ n ih =>
    intro i acc j hj hshort k hk
    by_cases h0 : (env i).navOk
    · by_cases h1 : (env i).captcha && !(env i).renavOk
      · simp [Multi.scrapeLocationGo, h0, h1] at hj hk; omega
      · by_cases h2 : (env i).jobs.isEmpty
        · simp [Multi.scrapeLocationGo, h0, h1, h2] at hj hk; omega
        · by_cases h3 : (env i).jobs.length < 20
          · simp [Multi.scrapeLocationGo, h0, h1, h2, h3] at hj hk; omega
          · by_cases h4 : target ≤ (acc.length : Int) + ((env i).jobs.length : Int)
            · simp [Multi.scrapeLocationGo, h0, h1, h2, h3, h4] at hj hk; omega
            · simp [Multi.scrapeLocationGo, h0, h1, h2, h3, h4] at hj hk
              rcases hj with rfl | hj
              · exact absurd hshort h3
              · rcases hk with rfl | hk
                · exact Nat.le_of_succ_le (scrapeLocationGo_mem_ge env target n (k + 1) _ j hj)
                · exact ih (i + 1) _ j hj hshort k hk
    · simp [Multi.scrapeLocationGo, h0] at hj hk; omega

/-! ## Claim theorems -/

/-- C1: for every sequence of records offered to the dedup loop of either
engine, the accepted output has pairwise distinct identity keys, is a
sublist of the input (so it preserves first-acceptance encounter order), and
for every offered record the accepted record with its key is the first
occurrence of that key in the input. -/
theorem dedup_first_occurrence_law (l : List Job1) (m : List JobM) :
    List.Sublist (Single.unique_jobs l) l ∧
    (Single.unique_jobs l).Pairwise (fun a b => Single.identityKey a ≠ Single.identityKey b) ∧
    (∀ r ∈ l, ∃ f, l.find? (fun x => Single.identityKey x == Single.identityKey r) = some f ∧
      f ∈ Single.unique_jobs l) ∧
    List.Sublist (Multi.offerAll ⟨[], []⟩ m).jobs m ∧
    ((Multi.offerAll ⟨[], []⟩ m).jobs.Pairwise
      (fun a b => Multi.identityKeyM a ≠ Multi.identityKeyM b)) ∧
    (∀ r ∈ m, ∃ f, m.find? (fun x => Multi.identityKeyM x == Multi.identityKeyM r) = some f ∧
      f ∈ (Multi.offerAll ⟨[], []⟩ m).jobs) := by
  have hu : Single.unique_jobs l = dedupByKey Single.identityKey l [] := by
    rw [Single.unique_jobs, dedupLoop_eq]; simp
  have hm : (Multi.offerAll ⟨[], []⟩ m).jobs = dedupByKey Multi.identityKeyM m [] := by
    rw [offerAll_jobs]; simp
  rw [hu, hm]
  refine ⟨dedupByKey_sublist _ l [], dedupByKey_pairwise _ l [], ?_,
    dedupByKey_sublist _ m [], dedupByKey_pairwise _ m [], ?_⟩
  · intro r hr
    exact dedupByKey_first _ l [] r hr (by simp)
  · intro r hr
    exact dedupByKey_first _ m [] r hr (by simp)

/-- C1 witness: the law applied to a concrete offered sequence. -/
theorem dedup_first_occurrence_law_w :
    List.Sublist (Single.unique_jobs [jobU, jobAB_C]) [jobU, jobAB_C] ∧
    (∃ f, [jobU, jobAB_C].find?
        (fun x => Single.identityKey x == Single.identityKey jobU) = some f ∧
      f ∈ Single.unique_jobs [jobU, jobAB_C]) := by
  obtain ⟨h1, _, h3, _⟩ := dedup_first_occurrence_law [jobU, jobAB_C] []
  exact ⟨h1, h3 jobU (by decide)⟩

/-- C2 counterexample: in the multi-region engine a page yielding 22 records
— fewer than the fixed full-page size 25 — does not stop pagination: pages
1 to 4 are still fetched afterwards. -/
theorem pagination_full_page_size_cex :
    (envM22 0).jobs.length = 22 ∧ 22 < 25 ∧
    (Multi.scrape_location envM22 1000).1 = [0, 1, 2, 3, 4] ∧
    (1 : Nat) ∈ (Multi.scrape_location envM22 1000).1 := by
  exact ⟨by decide, by decide, by decide, by decide⟩

/-- C2 (amended): a page whose extraction yields fewer records than the
engine's last-page threshold — 25 in the single-region engine, 20 in the
multi-region engine — is the last page fetched for that context. -/
theorem pagination_short_page_stop (env1 : Nat → Single.PageEnv)
    (envM : Nat → Multi.PageEnvM) (max_pages : Nat) (target : Int) (i j : Nat) :
    ((env1 i).jobs.length < 25 → i ∈ (Single.scrape env1 max_pages).1 →
      j ∈ (Single.scrape env1 max_pages).1 → j ≤ i) ∧
    ((envM i).jobs.length < 20 → i ∈ (Multi.scrape_location envM target).1 →
      j ∈ (Multi.scrape_location envM target).1 → j ≤ i) := by
  constructor
  · intro hshort hi hj
    exact scrapeGo_short_last env1 max_pages 0 [] i hi hshort j hj
  · intro hshort hi hj
    exact scrapeLocationGo_short_last envM target 5 0 [] i hi hshort j hj

/-- C2 witness: a concrete short page really is the last fetched one. -/
theorem pagination_short_page_stop_w :
    (envShort 0).jobs.length < 25 ∧ (0 : Nat) ∈ (Single.scrape envShort 3).1 ∧ (0 : Nat) ≤ 0 := by
  refine ⟨by decide, by decide, ?_⟩
  exact (pagination_short_page_stop envShort envM22 3 1000 0 0).1 (by decide) (by decide) (by decide)

/-- C3 counterexample: the query string always contains the time filter
f_TPR as a present-but-empty parameter, so the builder does not omit every
filter key whose value is empty. -/
theorem query_builder_empty_param_cex :
    ("f_TPR", "") ∈ build_search_params "AI" "Singapore" 0 "" "" "" ∧
    build_search_url "AI" "Singapore" 0 "" "" "" =
      "https://www.linkedin.com/jobs/search/?keywords=AI&location=Singapore&f_TPR=&position=1&pageNum=0&start=0" := by
  exact ⟨by decide, by decide⟩

/-- C3 (amended): each of the three optional filter keys f_E, f_I, f_SB2 is
omitted when its value is empty and otherwise appears verbatim as exactly
one key/value pair; the fixed parameter f_TPR is always emitted with an
empty value. -/
theorem query_builder_optional_filters (kw loc : String) (st : Nat) (e ind m : String) :
    ((build_search_params kw loc st e ind m).countP (fun p => p.1 == "f_E") =
      if e = "" then 0 else 1) ∧
    (e ≠ "" → ("f_E", e) ∈ build_search_params kw loc st e ind m) ∧
    ((build_search_params kw loc st e ind m).countP (fun p => p.1 == "f_I") =
      if ind = "" then 0 else 1) ∧
    (ind ≠ "" → ("f_I", ind) ∈ build_search_params kw loc st e ind m) ∧
    ((build_search_params kw loc st e ind m).countP (fun p => p.1 == "f_SB2") =
      if m = "" then 0 else 1) ∧
    (m ≠ "" → ("f_SB2", m) ∈ build_search_params kw loc st e ind m) ∧
    ("f_TPR", "") ∈ build_search_params kw loc st e ind m := by
  rcases eq_or_ne e "" with he | he <;> rcases eq_or_ne ind "" with hi | hi <;>
    rcases eq_or_ne m "" with hm | hm <;>
    simp [build_search_params, he, hi, hm, List.countP_append, List.countP_cons]

/-- C3 witness: a set salary filter appears in the params. -/
theorem query_builder_optional_filters_w :
    ("f_SB2", "3") ∈ build_search_params "AI" "Singapore" 0 "" "" "3" :=
  (query_builder_optional_filters "AI" "Singapore" 0 "" "" "3").2.2.2.2.2.1 (by decide)

/-- C4: the region loop visits a prefix of the configured location list in
order; every visited location had accepted count strictly below the target
on entry; with the target already met it visits nothing; and when the target
is not met it does start the next configured location. -/
theorem region_controller_target_gate (raw : String → Int → List JobM) (target : Int) :
    ∀ (locs : List String) (st : Multi.RunSt),
      ((Multi.runRegions raw target locs st).2.map Prod.fst) <+: locs ∧
      (∀ p ∈ (Multi.runRegions raw target locs st).2, (p.2 : Int) < target) ∧
      (target ≤ (st.jobs.length : Int) → (Multi.runRegions raw target locs st).2 = []) ∧
      (∀ loc rest, locs = loc :: rest → (st.jobs.length : Int) < target →
        ((Multi.runRegions raw target locs st).2).head? = some (loc, st.jobs.length)) := by
  intro locs
  induction locs with
  | nil =>
    intro st
    refine ⟨?_, ?_, ?_, ?_⟩
    · simp [Multi.runRegions]
    · simp [Multi.runRegions]
    · intro _; simp [Multi.runRegions]
    · intro loc rest heq; cases heq
  | cons loc rest ih =>
    intro st
    by_cases hstop : target - (st.jobs.length : Int) ≤ 0
    · have hr : Multi.runRegions raw target (loc :: rest) st = (st, []) := by
        simp [Multi.runRegions, hstop]
      refine ⟨by rw [hr]; exact List.nil_prefix, by rw [hr]; simp, fun _ => by rw [hr], ?_⟩
      intro loc' rest' _ hlt
      exact absurd hlt (by omega)
    · have hlt : (st.jobs.length : Int) < target := by omega
      have hr : Multi.runRegions raw target (loc :: rest) st =
          ((Multi.runRegions raw target rest
              (Multi.offerAll st (raw loc (target - (st.jobs.length : Int))))).1,
            (loc, st.jobs.length) ::
              (Multi.runRegions raw target rest
                (Multi.offerAll st (raw loc (target - (st.jobs.length : Int))))).2) := by
        simp [Multi.runRegions, hstop]
      obtain ⟨ihpre, ihlt, _, _⟩ :=
        ih (Multi.offerAll st (raw loc (target - (st.jobs.length : Int))))
      refine ⟨?_, ?_, ?_, ?_⟩
      · rw [hr]
        simp only [List.map_cons]
        obtain ⟨t, ht⟩ := ihpre
        exact ⟨t, by simp [ht]⟩
      · rw [hr]
        intro p hp
        rcases List.mem_cons.1 hp with rfl | hp'
        · simpa using hlt
        · exact ihlt p hp'
      · intro hge
        exact absurd hge (by omega)
      · intro loc' rest' heq _
        cases heq
        rw [hr]
        rfl

/-- C4 witness: with target 1 and one record per location, the second
location is never started. -/
theorem region_controller_target_gate_w :
    ((Multi.runRegions rawOne 1 ["A", "B"] ⟨[], []⟩).2.map Prod.fst) <+: ["A", "B"] ∧
    (∀ p ∈ (Multi.runRegions rawOne 1 ["A", "B"] ⟨[], []⟩).2, (p.2 : Int) < 1) ∧
    ((Multi.runRegions rawOne 1 ["A", "B"] ⟨[], []⟩).2).head? = some ("A", 0) := by
  obtain ⟨h1, h2, _, h4⟩ := region_controller_target_gate rawOne 1 ["A", "B"] ⟨[], []⟩
  exact ⟨h1, h2, h4 "A" ["B"] rfl (by decide)⟩

/-- C5 counterexample: a multi-region card whose location extraction fails
is emitted with the search location label, not the empty string, in its
Location field. -/
theorem record_empty_default_cex :
    cardLocFail.location? = none ∧
    Multi.extract_jobs_from_page [cardLocFail] "Japan" =
      [⟨"T", "Co", "Japan", "", "", "Japan", "", ""⟩] ∧
    (Multi.rowOf ⟨"T", "Co", "Japan", "", "", "Japan", "", ""⟩).lookup "Location" =
      some "Japan" ∧
    "Japan" ≠ "" := by
  exact ⟨by decide, by decide, by decide, by decide⟩

/-- C5 (amended): every emitted record row has exactly the engine's fixed
ordered key set with string values; a failed field defaults to the empty
string, except the multi-region Location field, which defaults to the
search location label. -/
theorem record_shape_invariant (cards : List Card) (location : String) :
    (∀ row ∈ (Single.extract_jobs_from_page cards).map Single.rowOf,
      row.map Prod.fst = ["Job Title", "Company", "Location", "Posted", "Job URL",
        "Seniority", "Employment Type", "Description"]) ∧
    (∀ row ∈ (Multi.extract_jobs_from_page cards location).map Multi.rowOf,
      row.map Prod.fst = ["Job Title", "Company", "Location", "Posted", "Job URL",
        "Search Region", "Seniority", "Employment Type"]) ∧
    fieldOf none = "" ∧ urlOf none = "" ∧ (∀ loc : String, locOfM none loc = loc) := by
  refine ⟨?_, ?_, rfl, rfl, fun _ => rfl⟩
  · intro row hrow
    obtain ⟨j, _, rfl⟩ := List.mem_map.1 hrow
    rfl
  · intro row hrow
    obtain ⟨j, _, rfl⟩ := List.mem_map.1 hrow
    rfl

/-- C5 witness: the defaults evaluated at concrete inputs. -/
theorem record_shape_invariant_w :
    fieldOf none = "" ∧ locOfM none "Singapore" = "Singapore" := by
  obtain ⟨_, _, h3, _, h5⟩ := record_shape_invariant [] "Singapore"
  exact ⟨h3, h5 "Singapore"⟩

/-- C6 counterexample: in the multi-region engine a failed location
extraction yields the search location label for that field, not the empty
string (the record is kept either way). -/
theorem field_failure_default_cex :
    (Multi.extractCard ⟨some "T", some "Co", none, some "2d", none⟩ "India").location =
      "India" ∧
    "India" ≠ "" ∧
    Multi.extract_jobs_from_page [⟨some "T", some "Co", none, some "2d", none⟩] "India" =
      [Multi.extractCard ⟨some "T", some "Co", none, some "2d", none⟩ "India"] := by
  exact ⟨by decide, by decide, by decide⟩

/-- C6 (amended): the extractor output is exactly the accepted cards mapped
through the per-card field extraction; acceptance depends only on title and
company being non-empty, so failures of the other fields never discard the
record; a failed field yields the empty string, except the multi-region
Location field, which yields the search location label. -/
theorem field_isolation_and_acceptance (cards : List Card) (location : String) (c : Card) :
    Single.extract_jobs_from_page cards = (cards.filter accepts).map Single.extractCard ∧
    Multi.extract_jobs_from_page cards location =
      (cards.filter accepts).map (fun x => Multi.extractCard x location) ∧
    (accepts c = true ↔ (fieldOf c.title? ≠ "" ∨ fieldOf c.company? ≠ "")) ∧
    accepts c = accepts ⟨c.title?, c.company?, none, none, none⟩ ∧
    fieldOf none = "" ∧ urlOf none = "" ∧ locOfM none location = location := by
  refine ⟨extract1_eq cards, extractM_eq cards location, ?_, rfl, rfl, rfl, rfl⟩
  simp [accepts]

/-- C6 witness: the characterization applied to a concrete card list. -/
theorem field_isolation_and_acceptance_w :
    Single.extract_jobs_from_page [cardLocFail] =
      ([cardLocFail].filter accepts).map Single.extractCard ∧
    locOfM none "India" = "India" := by
  obtain ⟨h1, _, _, _, _, _, h7⟩ := field_isolation_and_acceptance [cardLocFail] "India" cardLocFail
  exact ⟨h1, h7⟩

/-- C7: at the failing input — navigation lands on a CAPTCHA page and the
unprotected post-cooldown re-navigation (single-region engine, line 271)
times out — the exception escapes the page loop and propagates out of the
whole run, instead of being handled as a non-fatal error. -/
theorem captcha_renav_crash :
    Single.scrape envCrash 5 = ([0], Except.error UncaughtExc.playwrightTimeout) ∧
    Single.run envCrash 5 = Except.error UncaughtExc.playwrightTimeout := by
  exact ⟨rfl, rfl⟩

/-- C8: each engine exits with code 1 exactly when the collected record
sequence is empty at run end, and otherwise completes normally, exporting
the (deduplicated, respectively target-trimmed) sequence; in the
single-region engine the raw collected list is empty exactly when the
deduplicated one is. -/
theorem empty_result_fatal_exit (collected : List Job1) (raw : String → Int → List JobM)
    (target : Int) (locs : List String) :
    (Single.mainTail collected = Except.error 1 ↔ collected = []) ∧
    (collected ≠ [] → Single.mainTail collected = Except.ok (Single.unique_jobs collected)) ∧
    (collected = [] ↔ Single.unique_jobs collected = []) ∧
    (Multi.mainTail raw target locs = Except.error 1 ↔
      (Multi.runRegions raw target locs ⟨[], []⟩).1.jobs = []) ∧
    ((Multi.runRegions raw target locs ⟨[], []⟩).1.jobs ≠ [] →
      Multi.mainTail raw target locs =
        Except.ok ((Multi.runRegions raw target locs ⟨[], []⟩).1.jobs.take target.toNat)) := by
  refine ⟨?_, ?_, ?_, ?_, ?_⟩
  · cases collected <;> simp [Single.mainTail]
  · intro h
    cases collected with
    | nil => exact absurd rfl h
    | cons a as => simp [Single.mainTail]
  · cases collected with
    | nil => simp [Single.unique_jobs, dedupLoop]
    | cons a as =>
      simp [Single.unique_jobs, dedupLoop_eq, dedupByKey]
  · rcases hjs : (Multi.runRegions raw target locs ⟨[], []⟩).1.jobs with _ | ⟨a, as⟩ <;>
      simp [Multi.mainTail, hjs]
  · intro h
    rcases hjs : (Multi.runRegions raw target locs ⟨[], []⟩).1.jobs with _ | ⟨a, as⟩
    · exact absurd hjs h
    · simp [Multi.mainTail, hjs]

/-- C8 witness: a non-empty run completes normally in both engines. -/
theorem empty_result_fatal_exit_w :
    Single.mainTail [jobU] = Except.ok (Single.unique_jobs [jobU]) ∧
    Multi.mainTail rawOne 1 ["A"] =
      Except.ok ((Multi.runRegions rawOne 1 ["A"] ⟨[], []⟩).1.jobs.take (1 : Int).toNat) := by
  obtain ⟨_, h2, _, _, h5⟩ := empty_result_fatal_exit [jobU] rawOne 1 ["A"]
  exact ⟨h2 (by decide), h5 (by decide)⟩

/-- C9: with an empty Job URL the single-region identity key is the bare
concatenation of title and company, so two distinct records collide and the
second is dropped, while the multi-region key joins them with a separator
and keeps both. -/
theorem concat_key_collision :
    Single.identityKey jobAB_C = Single.identityKey jobA_BC ∧
    jobAB_C ≠ jobA_BC ∧
    Single.unique_jobs [jobAB_C, jobA_BC] = [jobAB_C] ∧
    Multi.identityKeyM jobMAB_C ≠ Multi.identityKeyM jobMA_BC ∧
    (Multi.offerAll ⟨[], []⟩ [jobMAB_C, jobMA_BC]).jobs = [jobMAB_C, jobMA_BC] := by
  exact ⟨by decide, by decide, by decide, by decide, by decide⟩

/-- C10: a multi-region run that accepts at least one record exports the
accepted sequence truncated to the first target elements: the exported
length is the minimum of the accepted count and the target and never
exceeds the target. -/
theorem export_truncation (raw : String → Int → List JobM) (target : Int)
    (locs : List String) (out : List JobM)
    (h : Multi.mainTail raw target locs = Except.ok out) :
    out = (Multi.runRegions raw target locs ⟨[], []⟩).1.jobs.take target.toNat ∧
    out.length = min (Multi.runRegions raw target locs ⟨[], []⟩).1.jobs.length target.toNat ∧
    0 < target ∧ (out.length : Int) ≤ target := by
  have hne : ¬ (Multi.runRegions raw target locs ⟨[], []⟩).1.jobs = [] := by
    intro hem
    simp [Multi.mainTail, hem] at h
  have hout : out =
      (Multi.runRegions raw target locs ⟨[], []⟩).1.jobs.take target.toNat := by
    rw [Multi.mainTail] at h
    rw [if_neg (by simpa [List.isEmpty_iff] using hne)] at h
    exact (Except.ok.inj h).symm
  have hpos : 0 < target := by
    by_contra hnp
    push_neg at hnp
    have hz : Multi.runRegions raw target locs (⟨[], []⟩ : Multi.RunSt) =
        ((⟨[], []⟩ : Multi.RunSt), []) := by
      cases locs with
      | nil => simp [Multi.runRegions]
      | cons a as => simp [Multi.runRegions, hnp]
    apply hne
    rw [hz]
  refine ⟨hout, ?_, hpos, ?_⟩
  · rw [hout, List.length_take, Nat.min_comm]
  · rw [hout, List.length_take]
    have h1 : min target.toNat
        (Multi.runRegions raw target locs ⟨[], []⟩).1.jobs.length ≤ target.toNat :=
      Nat.min_le_left _ _
    have h2 : (target.toNat : Int) = target := Int.toNat_of_nonneg (le_of_lt hpos)
    omega

/-- C10 witness: the truncation law at a concrete completed run. -/
theorem export_truncation_w :
    [jobMU] = (Multi.runRegions rawOne 1 ["A"] ⟨[], []⟩).1.jobs.take (1 : Int).toNat ∧
    [jobMU].length =
      min (Multi.runRegions rawOne 1 ["A"] ⟨[], []⟩).1.jobs.length (1 : Int).toNat ∧
    0 < (1 : Int) ∧ (([jobMU].length : Nat) : Int) ≤ 1 :=
  export_truncation rawOne 1 ["A"] [jobMU] (by rfl)

end Scraper
